import Mathlib

/-!
# Verification of the BYOC deployment lifecycle orchestrator

Shallow embedding of the deployment orchestrator: the job record store
(`src/api/database.py`), the request/response models (`src/api/models.py`)
and the orchestrator endpoints plus the background trigger sequence
(`src/api/main.py`).  Timestamps are modelled as natural numbers supplied
by the caller, the SQLite table as a list of records (row order = insertion
order, matching `.first()` semantics), and each remote (network) call as an
`Except`-valued input describing that call's outcome.
-/

namespace Byoc

/-- `DeploymentStatus` from `src/api/models.py`. -/
inductive DeploymentStatus where
  | pending
  | in_progress
  | succeeded
  | failed
  | destroying
  | destroyed
  deriving DecidableEq, Repr

/-- `EksMode` from `src/api/models.py`. -/
inductive EksMode where
  | auto
  | managed
  deriving DecidableEq, Repr

/-- `NodeGroupConfig` from `src/api/models.py`. -/
structure NodeGroupConfig where
  instance_types : List String
  desired_size : Nat
  min_size : Nat
  max_size : Nat
  disk_size : Nat
  capacity_type : String
  deriving DecidableEq, Repr

/-- `CustomerOnboardRequest` from `src/api/models.py`. -/
structure CustomerOnboardRequest where
  customer_name : String
  environment : String
  role_arn : String
  external_id : String
  aws_region : String
  vpc_cidr : String
  availability_zones : Option (List String)
  eks_version : String
  eks_mode : EksMode
  node_group_config : Option NodeGroupConfig
  deriving DecidableEq, Repr

/-- `CustomerDeploymentRecord` from `src/api/database.py` (one table row). -/
structure CustomerDeploymentRecord where
  id : Nat
  customer_name : String
  environment : String
  stack_name : String
  aws_region : String
  role_arn : String
  status : DeploymentStatus
  pulumi_deployment_id : Option String
  outputs : Option String
  error_message : Option String
  created_at : Nat
  updated_at : Nat
  deriving DecidableEq, Repr

/-- `DeploymentResponse` from `src/api/models.py`. -/
structure DeploymentResponse where
  customer_name : String
  environment : String
  stack_name : String
  status : DeploymentStatus
  message : String
  deployment_id : Option String
  deriving DecidableEq, Repr

/-- The deployment table: rows in insertion order. -/
abbrev Store := List CustomerDeploymentRecord

/-- Python truthiness of an `Optional[str]`: `None` and `""` are falsy.
`update_deployment_status` guards its partial updates with `if field:`. -/
def truthy : Option String → Bool
  | none => false
  | some s => !(s == "")

/-- `session.query(...).filter_by(stack_name=...).first()`. -/
def findByStack (db : Store) (stack_name : String) : Option CustomerDeploymentRecord :=
  db.find? (fun r => r.stack_name == stack_name)

/-- Replace the first row matching `stack_name` (SQLAlchemy mutates the row
returned by `.first()`; all other rows are untouched). -/
def updateFirst (db : Store) (stack_name : String)
    (f : CustomerDeploymentRecord → CustomerDeploymentRecord) : Store :=
  match db with
  | [] => []
  | r :: rest =>
      if r.stack_name == stack_name then f r :: rest
      else r :: updateFirst rest stack_name f

/-- The fresh row inserted by `Database.create_deployment`: column defaults
from `CustomerDeploymentRecord` in `src/api/database.py` (status PENDING,
timestamps `datetime.utcnow()` modelled as `now`, autoincrement id). -/
def newDeploymentRecord (customer_name environment aws_region role_arn : String)
    (now nextId : Nat) : CustomerDeploymentRecord :=
  { id := nextId
    customer_name := customer_name
    environment := environment
    stack_name := customer_name ++ "-" ++ environment
    aws_region := aws_region
    role_arn := role_arn
    status := DeploymentStatus.pending
    pulumi_deployment_id := none
    outputs := none
    error_message := none
    created_at := now
    updated_at := now }

/-- `Database.create_deployment` (`src/api/database.py` lines 71-109).
Returns the store after the call together with either the created record or
the message of the raised `ValueError`; the raise happens before any write,
so on error the store component is the input store. -/
def create_deployment (db : Store) (customer_name environment aws_region role_arn : String)
    (now nextId : Nat) : Store × Except String CustomerDeploymentRecord :=
  let stack_name := customer_name ++ "-" ++ environment
  match findByStack db stack_name with
  | some _ => (db, Except.error ("Deployment " ++ stack_name ++ " already exists"))
  | none =>
      let record := newDeploymentRecord customer_name environment aws_region role_arn now nextId
      (db ++ [record], Except.ok record)

/-- `Database.get_deployment` (`src/api/database.py` lines 111-127). -/
def get_deployment (db : Store) (customer_name environment : String) :
    Option CustomerDeploymentRecord :=
  findByStack db (customer_name ++ "-" ++ environment)

/-- The in-row mutation performed by `Database.update_deployment_status`
(`src/api/database.py` lines 169-177): status and `updated_at` always, the
three optional fields only when truthy (`if pulumi_deployment_id:` etc.). -/
def applyUpdate (record : CustomerDeploymentRecord) (status : DeploymentStatus)
    (pulumi_deployment_id outputs error_message : Option String) (now : Nat) :
    CustomerDeploymentRecord :=
  { record with
    status := status
    updated_at := now
    pulumi_deployment_id :=
      if truthy pulumi_deployment_id then pulumi_deployment_id
      else record.pulumi_deployment_id
    outputs := if truthy outputs then outputs else record.outputs
    error_message :=
      if truthy error_message then error_message else record.error_message }

/-- `Database.update_deployment_status` (`src/api/database.py` lines 142-181).
Returns the new store together with the updated record (`none` when no row
matches, in which case the store is unchanged). -/
def update_deployment_status (db : Store) (stack_name : String) (status : DeploymentStatus)
    (pulumi_deployment_id outputs error_message : Option String) (now : Nat) :
    Store × Option CustomerDeploymentRecord :=
  match findByStack db stack_name with
  | none => (db, none)
  | some record =>
      let record' := applyUpdate record status pulumi_deployment_id outputs error_message now
      (updateFirst db stack_name (fun _ => record'), some record')

/-! ## The orchestrator endpoints (`src/api/main.py`)

Each remote call of `PulumiDeploymentsClient` is a network round trip whose
outcome is an input of the model: `Except.error e` models a raised exception
with message `str(e) = e`, `Except.ok` a successful JSON response. -/

/-- The JSON body answered by `trigger_deployment`; `id` is `none` when the
response carries no `id` key, so that `result.get("id", "")` yields `""`. -/
structure TriggerResponse where
  id : Option String
  deriving DecidableEq, Repr

/-- The JSON body answered by the remote `get_deployment_status`; the fields
model `status.get("status", "")` and `status.get("message", "Deployment failed")`. -/
structure PollResponse where
  status : Option String
  message : Option String
  deriving DecidableEq, Repr

/-- Outcomes of the three remote calls made by `run_deployment`:
`create_stack`, `configure_deployment_settings`, `trigger_deployment`. -/
structure RunRemote where
  ensureResult : Except String Unit
  configureResult : Except String Unit
  triggerResult : Except String TriggerResponse
  deriving Repr

/-- Outcomes of the remote calls made by the status endpoint:
`get_deployment_status` (poll) and `get_stack_outputs`. -/
structure PollRemote where
  pollResult : Except String PollResponse
  outputsResult : Except String (List (String × String))
  deriving Repr

/-- `json.dumps` of the fetched outputs map: an opaque serialization; all
that matters downstream is that it is never the empty string. -/
def json_dumps (m : List (String × String)) : String :=
  "\x7b" ++ String.intercalate ", " (m.map (fun p => p.1 ++ ": " ++ p.2)) ++ "\x7d"

/-- The three steps of the background trigger sequence. -/
inductive Step where
  | ensureProject
  | applyConfig
  | trigger
  deriving DecidableEq, Repr

/-- `run_deployment` (`src/api/main.py` lines 36-92): the background task.
Returns the resulting store together with the trace of remote steps that
were executed.  Mirrors the source: the status is first set to IN_PROGRESS;
any exception of `create_stack` is swallowed by the inner `try`/`pass`; an
exception of `configure_deployment_settings` or `trigger_deployment` is
caught by the outer handler, which sets FAILED with `error_message=str(e)`;
on success the trigger id `result.get("id", "")` is persisted. -/
def run_deployment (db : Store) (request : CustomerOnboardRequest) (remote : RunRemote)
    (tStart tEnd : Nat) : Store × List Step :=
  let stack_name := request.customer_name ++ "-" ++ request.environment
  let db1 := (update_deployment_status db stack_name DeploymentStatus.in_progress
      none none none tStart).1
  match remote.configureResult with
  | Except.error e =>
      ((update_deployment_status db1 stack_name DeploymentStatus.failed
          none none (some e) tEnd).1,
        [Step.ensureProject, Step.applyConfig])
  | Except.ok _ =>
      match remote.triggerResult with
      | Except.error e =>
          ((update_deployment_status db1 stack_name DeploymentStatus.failed
              none none (some e) tEnd).1,
            [Step.ensureProject, Step.applyConfig, Step.trigger])
      | Except.ok result =>
          let deployment_id := result.id.getD ""
          ((update_deployment_status db1 stack_name DeploymentStatus.in_progress
              (some deployment_id) none none tEnd).1,
            [Step.ensureProject, Step.applyConfig, Step.trigger])

/-- A background task scheduled by `background_tasks.add_task(run_deployment, ...)`. -/
structure Task where
  request : CustomerOnboardRequest
  deriving DecidableEq, Repr

/-- Outcome of the onboarding endpoint: the three `HTTPException(409)` paths
and the accepted path.  `conflictInProgress` and `conflictAlreadyDeployed`
are the two explicit guards; `conflictCreate` is the `ValueError` raised by
`create_deployment` and re-raised as a 409. -/
inductive OnboardOutcome where
  | conflictInProgress (detail : String)
  | conflictAlreadyDeployed (detail : String)
  | conflictCreate (detail : String)
  | accepted (response : DeploymentResponse)
  deriving DecidableEq, Repr

/-- `onboard_customer` (`src/api/main.py` lines 102-149): the synchronous
part of Submit.  Returns the new store, the HTTP outcome, and the list of
background tasks scheduled by the call (empty on every failure path, since
`raise HTTPException` aborts the handler before `add_task`). -/
def onboard_customer (db : Store) (request : CustomerOnboardRequest) (now nextId : Nat) :
    Store × OnboardOutcome × List Task :=
  let stack_name := request.customer_name ++ "-" ++ request.environment
  match get_deployment db request.customer_name request.environment with
  | some existing =>
      if existing.status = DeploymentStatus.in_progress then
        (db, OnboardOutcome.conflictInProgress
          ("Deployment " ++ stack_name ++ " is already in progress"), [])
      else if existing.status = DeploymentStatus.succeeded then
        (db, OnboardOutcome.conflictAlreadyDeployed
          ("Deployment " ++ stack_name ++ " already exists. Use update endpoint to modify."), [])
      else
        let created := create_deployment db request.customer_name request.environment
            request.aws_region request.role_arn now nextId
        match created.2 with
        | Except.error e => (created.1, OnboardOutcome.conflictCreate e, [])
        | Except.ok _ =>
            (created.1, OnboardOutcome.accepted
              { customer_name := request.customer_name
                environment := request.environment
                stack_name := stack_name
                status := DeploymentStatus.pending
                message := "Deployment initiated. Check status endpoint for progress."
                deployment_id := none },
              [{ request := request }])
  | none =>
      let created := create_deployment db request.customer_name request.environment
          request.aws_region request.role_arn now nextId
      match created.2 with
      | Except.error e => (created.1, OnboardOutcome.conflictCreate e, [])
      | Except.ok _ =>
          (created.1, OnboardOutcome.accepted
            { customer_name := request.customer_name
              environment := request.environment
              stack_name := stack_name
              status := DeploymentStatus.pending
              message := "Deployment initiated. Check status endpoint for progress."
              deployment_id := none },
            [{ request := request }])

/-- Outcome of the status endpoint: 404, or the record that is returned
together with whether the remote engine was polled during the call. -/
inductive GetStatusOutcome where
  | notFound
  | found (record : CustomerDeploymentRecord) (polled : Bool)
  deriving DecidableEq, Repr

/-- `get_deployment_status` (`src/api/main.py` lines 156-225): status read
with best-effort reconciliation.  The remote engine is polled only when the
stored status is IN_PROGRESS and `deployment.pulumi_deployment_id` is truthy;
any exception inside the `try` block (poll or outputs fetch) is swallowed by
`except Exception: pass` and the stale record is returned. -/
def get_deployment_status (db : Store) (customer_name environment : String)
    (remote : PollRemote) (now : Nat) : Store × GetStatusOutcome :=
  match get_deployment db customer_name environment with
  | none => (db, GetStatusOutcome.notFound)
  | some deployment =>
      if deployment.status = DeploymentStatus.in_progress ∧
          truthy deployment.pulumi_deployment_id then
        match remote.pollResult with
        | Except.error _ => (db, GetStatusOutcome.found deployment true)
        | Except.ok st =>
            let pulumi_status := st.status.getD ""
            let stack_name := deployment.stack_name
            if pulumi_status = "succeeded" then
              match remote.outputsResult with
              | Except.error _ => (db, GetStatusOutcome.found deployment true)
              | Except.ok outs =>
                  let db' := (update_deployment_status db stack_name
                      DeploymentStatus.succeeded none (some (json_dumps outs)) none now).1
                  let deployment' :=
                    (get_deployment db' customer_name environment).getD deployment
                  (db', GetStatusOutcome.found deployment' true)
            else if pulumi_status = "failed" then
              let db' := (update_deployment_status db stack_name
                  DeploymentStatus.failed none none
                  (some (st.message.getD "Deployment failed")) now).1
              let deployment' :=
                (get_deployment db' customer_name environment).getD deployment
              (db', GetStatusOutcome.found deployment' true)
            else (db, GetStatusOutcome.found deployment true)
      else (db, GetStatusOutcome.found deployment false)

/-! ## Destroy request validation (`src/api/models.py` lines 479-493) -/

/-- `DestroyRequest`: a validated request value can only exist with a
truthful `confirm` flag (pydantic runs `validate_confirm` at construction). -/
structure DestroyRequest where
  confirm : Bool
  deriving DecidableEq, Repr

/-- `DestroyRequest.validate_confirm`: rejects any falsy `confirm`. -/
def validate_confirm (v : Bool) : Except String Bool :=
  if !v then Except.error "confirm must be true to destroy infrastructure"
  else Except.ok v

/-- Pydantic model construction for `DestroyRequest`: the field validator
runs before the model exists; a validation error yields a 422 response and
no handler body ever runs. -/
def mkDestroyRequest (confirm : Bool) : Except String DestroyRequest :=
  match validate_confirm confirm with
  | Except.error e => Except.error e
  | Except.ok v => Except.ok { confirm := v }

/-- A destroy endpoint guarded by request validation: FastAPI parses and
validates the body into a `DestroyRequest` first and dispatches to the
handler only on success (the source ships the model; the handler itself is
arbitrary here, so the theorem covers any implementation behind the guard). -/
def destroy_endpoint {α : Type} (db : Store) (confirm : Bool)
    (handler : Store → DestroyRequest → Store × α) : Store × Except String α :=
  match mkDestroyRequest confirm with
  | Except.error e => (db, Except.error e)
  | Except.ok request =>
      let res := handler db request
      (res.1, Except.ok res.2)

/-! ## Customer configuration models (`src/api/models.py` lines 335-466) -/

/-- `CustomerConfig`: the full stored configuration, including the secret
`external_id`. -/
structure CustomerConfig where
  customer_id : String
  role_arn : String
  external_id : String
  aws_region : String
  vpc_cidr : String
  availability_zones : Option (List String)
  eks_version : String
  eks_mode : EksMode
  node_group_config : Option NodeGroupConfig
  created_at : Nat
  updated_at : Nat
  deriving DecidableEq, Repr

/-- `CustomerConfigResponse`: the API response model; it has no
`external_id` field at all. -/
structure CustomerConfigResponse where
  customer_id : String
  role_arn : String
  aws_region : String
  vpc_cidr : String
  availability_zones : Option (List String)
  eks_version : String
  eks_mode : EksMode
  node_group_config : Option NodeGroupConfig
  created_at : Nat
  updated_at : Nat
  deriving DecidableEq, Repr

/-- `CustomerConfigResponse.from_config` (`src/api/models.py` lines 438-459). -/
def CustomerConfigResponse.from_config (config : CustomerConfig) : CustomerConfigResponse :=
  { customer_id := config.customer_id
    role_arn := config.role_arn
    aws_region := config.aws_region
    vpc_cidr := config.vpc_cidr
    availability_zones := config.availability_zones
    eks_version := config.eks_version
    eks_mode := config.eks_mode
    node_group_config := config.node_group_config
    created_at := config.created_at
    updated_at := config.updated_at }

/-- `CustomerConfigListResponse` (`src/api/models.py` lines 462-466),
as built from a list of stored configurations. -/
structure CustomerConfigListResponse where
  configs : List CustomerConfigResponse
  total : Nat
  deriving DecidableEq, Repr

/-- Build the list response from stored configurations. -/
def listConfigsResponse (stored : List CustomerConfig) : CustomerConfigListResponse :=
  { configs := stored.map CustomerConfigResponse.from_config
    total := stored.length }

/-- Two stored configurations that differ at most in the secret
`external_id`. -/
def SameExceptSecret (c1 c2 : CustomerConfig) : Prop :=
  c1 = { c2 with external_id := c1.external_id }

/-! ## Store lemmas -/

theorem findByStack_key {db : Store} {key : String} {r : CustomerDeploymentRecord}
    (h : findByStack db key = some r) : r.stack_name = key := by
  have := List.find?_some h
  simpa using this

theorem findByStack_mem {db : Store} {key : String} {r : CustomerDeploymentRecord}
    (h : findByStack db key = some r) : r ∈ db :=
  List.mem_of_find?_eq_some h

theorem updateFirst_of_not_found {db : Store} {key : String}
    {f : CustomerDeploymentRecord → CustomerDeploymentRecord}
    (h : findByStack db key = none) : updateFirst db key f = db := by
  induction db with
  | nil => rfl
  | cons r rest ih =>
      rcases hb : (r.stack_name == key) with _ | _
      · have h' : findByStack rest key = none := by
          simpa [findByStack, List.find?, hb] using h
        simp [updateFirst, hb, ih h']
      · exfalso
        simp [findByStack, List.find?, hb] at h

theorem findByStack_updateFirst_self {db : Store} {key : String}
    {f : CustomerDeploymentRecord → CustomerDeploymentRecord} {r : CustomerDeploymentRecord}
    (h : findByStack db key = some r)
    (hf : ∀ x, x.stack_name = key → (f x).stack_name = key) :
    findByStack (updateFirst db key f) key = some (f r) := by
  induction db with
  | nil => simp [findByStack] at h
  | cons a rest ih =>
      rcases hb : (a.stack_name == key) with _ | _
      · have h' : findByStack rest key = some r := by
          simpa [findByStack, List.find?, hb] using h
        simp only [updateFirst, hb, Bool.false_eq_true, if_false]
        simpa [findByStack, List.find?, hb] using ih h'
      · have ha : a = r := by
          simpa [findByStack, List.find?, hb] using h
        have hkey : (f r).stack_name = key := hf r (by subst ha; exact of_decide_eq_true hb)
        subst ha
        simp [updateFirst, hb, findByStack, List.find?, hkey]

theorem findByStack_updateFirst_ne {db : Store} {key key' : String}
    {f : CustomerDeploymentRecord → CustomerDeploymentRecord}
    (hne : key' ≠ key)
    (hf : ∀ x, x.stack_name = key → (f x).stack_name = key) :
    findByStack (updateFirst db key f) key' = findByStack db key' := by
  induction db with
  | nil => rfl
  | cons a rest ih =>
      rcases hb : (a.stack_name == key) with _ | _
      · simp only [updateFirst, hb, Bool.false_eq_true, if_false]
        simp only [findByStack, List.find?]
        cases hb' : (a.stack_name == key') with
        | false => simpa [findByStack] using ih
        | true => rfl
      · have hak : a.stack_name = key := of_decide_eq_true hb
        have hkey : (f a).stack_name = key := hf a hak
        have h1 : (a.stack_name == key') = false := by
          simp [hak]; exact fun h => hne h.symm
        have h2 : ((f a).stack_name == key') = false := by
          simp [hkey]; exact fun h => hne h.symm
        simp [updateFirst, hb, findByStack, List.find?, h1, h2]

theorem mem_updateFirst {db : Store} {key : String}
    {f : CustomerDeploymentRecord → CustomerDeploymentRecord} {x : CustomerDeploymentRecord}
    (h : x ∈ updateFirst db key f) :
    x ∈ db ∨ ∃ r, findByStack db key = some r ∧ x = f r := by
  induction db with
  | nil => simp [updateFirst] at h
  | cons a rest ih =>
      rcases hb : (a.stack_name == key) with _ | _
      · simp only [updateFirst, hb, Bool.false_eq_true, if_false, List.mem_cons] at h
        rcases h with h | h
        · exact Or.inl (by simp [h])
        · rcases ih h with h' | ⟨r, hr, hx⟩
          · exact Or.inl (List.mem_cons_of_mem _ h')
          · exact Or.inr ⟨r, by simpa [findByStack, List.find?, hb] using hr, hx⟩
      · simp only [updateFirst, hb, if_true, List.mem_cons] at h
        rcases h with h | h
        · exact Or.inr ⟨a, by simp [findByStack, List.find?, hb], h⟩
        · exact Or.inl (List.mem_cons_of_mem _ h)

theorem map_stack_updateFirst {db : Store} {key : String}
    {f : CustomerDeploymentRecord → CustomerDeploymentRecord}
    (hf : ∀ x, x.stack_name = key → (f x).stack_name = key) :
    (updateFirst db key f).map CustomerDeploymentRecord.stack_name =
      db.map CustomerDeploymentRecord.stack_name := by
  induction db with
  | nil => rfl
  | cons a rest ih =>
      rcases hb : (a.stack_name == key) with _ | _
      · simp [updateFirst, hb, ih]
      · have hak : a.stack_name = key := of_decide_eq_true hb
        simp [updateFirst, hb, hf a hak, hak]

theorem applyUpdate_stack (record : CustomerDeploymentRecord) (status : DeploymentStatus)
    (pid outs err : Option String) (now : Nat) :
    (applyUpdate record status pid outs err now).stack_name = record.stack_name := rfl

theorem update_found {db : Store} {key : String} {r : CustomerDeploymentRecord}
    (status : DeploymentStatus) (pid outs err : Option String) (now : Nat)
    (h : findByStack db key = some r) :
    update_deployment_status db key status pid outs err now =
      (updateFirst db key (fun _ => applyUpdate r status pid outs err now),
        some (applyUpdate r status pid outs err now)) := by
  simp [update_deployment_status, h]

theorem update_not_found {db : Store} {key : String}
    (status : DeploymentStatus) (pid outs err : Option String) (now : Nat)
    (h : findByStack db key = none) :
    update_deployment_status db key status pid outs err now = (db, none) := by
  simp [update_deployment_status, h]

theorem findByStack_update_self {db : Store} {key : String} {r : CustomerDeploymentRecord}
    (status : DeploymentStatus) (pid outs err : Option String) (now : Nat)
    (h : findByStack db key = some r) :
    findByStack (update_deployment_status db key status pid outs err now).1 key =
      some (applyUpdate r status pid outs err now) := by
  rw [update_found status pid outs err now h]
  exact findByStack_updateFirst_self h
    (fun x hx => by rw [applyUpdate_stack]; exact (findByStack_key h).trans rfl)

theorem findByStack_update_ne {db : Store} {key key' : String}
    (status : DeploymentStatus) (pid outs err : Option String) (now : Nat)
    (hne : key' ≠ key) :
    findByStack (update_deployment_status db key status pid outs err now).1 key' =
      findByStack db key' := by
  cases h : findByStack db key with
  | none => rw [update_not_found status pid outs err now h]
  | some r =>
      rw [update_found status pid outs err now h]
      exact findByStack_updateFirst_ne hne
        (fun x hx => by rw [applyUpdate_stack]; exact (findByStack_key h).trans rfl)

theorem mem_update_store {db : Store} {key : String} {x : CustomerDeploymentRecord}
    (status : DeploymentStatus) (pid outs err : Option String) (now : Nat)
    (h : x ∈ (update_deployment_status db key status pid outs err now).1) :
    x ∈ db ∨ ∃ r, findByStack db key = some r ∧ x = applyUpdate r status pid outs err now := by
  cases hf : findByStack db key with
  | none =>
      rw [update_not_found status pid outs err now hf] at h
      exact Or.inl h
  | some r =>
      rw [update_found status pid outs err now hf] at h
      rcases mem_updateFirst h with h' | ⟨r0, hr0, hx⟩
      · exact Or.inl h'
      · exact Or.inr ⟨r, rfl, hx⟩

theorem map_stack_update {db : Store} {key : String}
    (status : DeploymentStatus) (pid outs err : Option String) (now : Nat) :
    ((update_deployment_status db key status pid outs err now).1).map
        CustomerDeploymentRecord.stack_name =
      db.map CustomerDeploymentRecord.stack_name := by
  cases hf : findByStack db key with
  | none => rw [update_not_found status pid outs err now hf]
  | some r =>
      rw [update_found status pid outs err now hf]
      exact map_stack_updateFirst
        (fun x hx => by rw [applyUpdate_stack]; exact (findByStack_key hf).trans rfl)

theorem json_dumps_ne_empty (m : List (String × String)) : json_dumps m ≠ "" := by
  intro h
  have h1 := congrArg String.length h
  rw [json_dumps] at h1
  simp [String.length_append] at h1
  exact absurd h1.2 (by decide)

theorem applyUpdate_empty (r : CustomerDeploymentRecord) (status : DeploymentStatus) (now : Nat) :
    applyUpdate r status (some "") (some "") (some "") now =
      applyUpdate r status none none none now := by
  simp [applyUpdate, truthy]

theorem from_config_ignores_secret (c1 c2 : CustomerConfig) (h : SameExceptSecret c1 c2) :
    CustomerConfigResponse.from_config c1 = CustomerConfigResponse.from_config c2 := by
  rw [h]; rfl

/-! ## Demo values used by the witnesses -/

def demoRequest : CustomerOnboardRequest :=
  { customer_name := "acme-co"
    environment := "prod"
    role_arn := "arn:aws:iam::123456789012:role/byoc"
    external_id := "external-id-123"
    aws_region := "us-east-1"
    vpc_cidr := "10.0.0.0/16"
    availability_zones := none
    eks_version := "1.31"
    eks_mode := EksMode.managed
    node_group_config := none }

def demoRecord (status : DeploymentStatus) : CustomerDeploymentRecord :=
  { id := 1
    customer_name := "acme-co"
    environment := "prod"
    stack_name := "acme-co-prod"
    aws_region := "us-east-1"
    role_arn := "arn:aws:iam::123456789012:role/byoc"
    status := status
    pulumi_deployment_id := none
    outputs := none
    error_message := none
    created_at := 0
    updated_at := 0 }

def demoConfig (secret : String) : CustomerConfig :=
  { customer_id := "acme-co"
    role_arn := "arn:aws:iam::123456789012:role/byoc"
    external_id := secret
    aws_region := "us-east-1"
    vpc_cidr := "10.0.0.0/16"
    availability_zones := none
    eks_version := "1.31"
    eks_mode := EksMode.managed
    node_group_config := none
    created_at := 0
    updated_at := 0 }

/-! ## The claims -/

/-- C1: a Submit whose derived jobKey matches an existing record fails with
409 `CONFLICT_IN_PROGRESS` when that record is IN_PROGRESS and with 409
`CONFLICT_ALREADY_DEPLOYED` when it is SUCCEEDED; in both cases the store
is returned unchanged (no record created, the existing row untouched) and
no background task is scheduled. -/
theorem onboard_conflict_guards (db : Store) (request : CustomerOnboardRequest)
    (now nextId : Nat) (r : CustomerDeploymentRecord)
    (h : get_deployment db request.customer_name request.environment = some r) :
    (r.status = DeploymentStatus.in_progress →
      onboard_customer db request now nextId =
        (db, OnboardOutcome.conflictInProgress
          ("Deployment " ++ (request.customer_name ++ "-" ++ request.environment) ++
            " is already in progress"), [])) ∧
    (r.status = DeploymentStatus.succeeded →
      onboard_customer db request now nextId =
        (db, OnboardOutcome.conflictAlreadyDeployed
          ("Deployment " ++ (request.customer_name ++ "-" ++ request.environment) ++
            " already exists. Use update endpoint to modify."), [])) := by
  constructor
  · intro hs
    simp [onboard_customer, h, hs]
  · intro hs
    simp [onboard_customer, h, hs]

theorem onboard_conflict_guards_witness :
    get_deployment [demoRecord DeploymentStatus.in_progress] "acme-co" "prod" =
        some (demoRecord DeploymentStatus.in_progress) ∧
    onboard_customer [demoRecord DeploymentStatus.in_progress] demoRequest 5 2 =
      ([demoRecord DeploymentStatus.in_progress],
        OnboardOutcome.conflictInProgress
          ("Deployment " ++ ("acme-co" ++ "-" ++ "prod") ++ " is already in progress"), []) :=
  ⟨rfl,
    (onboard_conflict_guards [demoRecord DeploymentStatus.in_progress] demoRequest 5 2
      (demoRecord DeploymentStatus.in_progress) rfl).1 rfl⟩

/-- C2: `create_deployment` on a jobKey that already has a row fails with the
`already exists` `ValueError` and leaves the store unchanged; and a create
call never introduces a duplicate jobKey (uniqueness of `stack_name` is
preserved), so a jobKey identifies at most one row. -/
theorem create_duplicate_rejected (db db2 : Store)
    (customer_name environment aws_region role_arn : String) (now nextId : Nat)
    (cn2 env2 rg2 rl2 : String) (now2 id2 : Nat) (r : CustomerDeploymentRecord)
    (h : findByStack db (customer_name ++ "-" ++ environment) = some r)
    (h2 : (db2.map CustomerDeploymentRecord.stack_name).Nodup) :
    create_deployment db customer_name environment aws_region role_arn now nextId =
      (db, Except.error
        ("Deployment " ++ (customer_name ++ "-" ++ environment) ++ " already exists")) ∧
    ((create_deployment db2 cn2 env2 rg2 rl2 now2 id2).1.map
        CustomerDeploymentRecord.stack_name).Nodup := by
  constructor
  · simp [create_deployment, h]
  · cases hf : findByStack db2 (cn2 ++ "-" ++ env2) with
    | some r2 => simpa [create_deployment, hf] using h2
    | none =>
        have hnotin : ∀ x ∈ db2, ¬(x.stack_name == cn2 ++ "-" ++ env2) = true :=
          List.find?_eq_none.mp hf
        simp only [create_deployment, hf, List.map_append, List.map_cons, List.map_nil]
        rw [List.nodup_append]
        refine ⟨h2, List.nodup_singleton _, ?_⟩
        intro a ha hb
        simp only [List.mem_singleton] at hb
        rcases List.mem_map.mp ha with ⟨x, hx, hxa⟩
        exact hnotin x hx (by simp [hxa, hb, newDeploymentRecord])

theorem create_duplicate_rejected_witness :
    findByStack [demoRecord DeploymentStatus.failed] ("acme-co" ++ "-" ++ "prod") =
        some (demoRecord DeploymentStatus.failed) ∧
    (([] : Store).map CustomerDeploymentRecord.stack_name).Nodup ∧
    create_deployment [demoRecord DeploymentStatus.failed] "acme-co" "prod" "us-east-1"
        "arn:aws:iam::123456789012:role/byoc" 3 7 =
      ([demoRecord DeploymentStatus.failed], Except.error
        ("Deployment " ++ ("acme-co" ++ "-" ++ "prod") ++ " already exists")) :=
  ⟨rfl, List.nodup_nil,
    (create_duplicate_rejected [demoRecord DeploymentStatus.failed] [] "acme-co" "prod"
      "us-east-1" "arn:aws:iam::123456789012:role/byoc" 3 7 "a" "b" "c" "d" 0 0
      (demoRecord DeploymentStatus.failed) rfl List.nodup_nil).1⟩

/-- C6: `update_deployment_status` sets `status`, always refreshes
`updated_at`, leaves every omitted optional field unchanged, leaves all
fields not named in the call unchanged, leaves every other row unchanged,
and returns `none` with an unchanged store when no row has the jobKey. -/
theorem update_status_partial_semantics (db : Store) (key : String)
    (status : DeploymentStatus) (pid outs err : Option String) (now : Nat) :
    (findByStack db key = none →
      update_deployment_status db key status pid outs err now = (db, none)) ∧
    (∀ r, findByStack db key = some r →
      (update_deployment_status db key status pid outs err now).2 =
          some (applyUpdate r status pid outs err now) ∧
      findByStack (update_deployment_status db key status pid outs err now).1 key =
          some (applyUpdate r status pid outs err now) ∧
      (applyUpdate r status pid outs err now).status = status ∧
      (applyUpdate r status pid outs err now).updated_at = now ∧
      (pid = none →
        (applyUpdate r status pid outs err now).pulumi_deployment_id =
          r.pulumi_deployment_id) ∧
      (outs = none → (applyUpdate r status pid outs err now).outputs = r.outputs) ∧
      (err = none →
        (applyUpdate r status pid outs err now).error_message = r.error_message) ∧
      (applyUpdate r status pid outs err now).id = r.id ∧
      (applyUpdate r status pid outs err now).customer_name = r.customer_name ∧
      (applyUpdate r status pid outs err now).environment = r.environment ∧
      (applyUpdate r status pid outs err now).stack_name = r.stack_name ∧
      (applyUpdate r status pid outs err now).aws_region = r.aws_region ∧
      (applyUpdate r status pid outs err now).role_arn = r.role_arn ∧
      (applyUpdate r status pid outs err now).created_at = r.created_at ∧
      (∀ key2, key2 ≠ key →
        findByStack (update_deployment_status db key status pid outs err now).1 key2 =
          findByStack db key2)) := by
  refine ⟨update_not_found status pid outs err now, fun r h => ?_⟩
  refine ⟨by rw [update_found status pid outs err now h], findByStack_update_self _ _ _ _ _ h,
    rfl, rfl, ?_, ?_, ?_, rfl, rfl, rfl, rfl, rfl, rfl, rfl,
    fun key2 hne => findByStack_update_ne status pid outs err now hne⟩
  · intro hp; simp [applyUpdate, hp, truthy]
  · intro hp; simp [applyUpdate, hp, truthy]
  · intro hp; simp [applyUpdate, hp, truthy]

theorem update_status_partial_semantics_witness :
    findByStack [demoRecord DeploymentStatus.pending] "acme-co-prod" =
        some (demoRecord DeploymentStatus.pending) ∧
    (update_deployment_status [demoRecord DeploymentStatus.pending] "acme-co-prod"
        DeploymentStatus.in_progress none none none 9).2 =
      some (applyUpdate (demoRecord DeploymentStatus.pending)
        DeploymentStatus.in_progress none none none 9) :=
  ⟨rfl,
    ((update_status_partial_semantics [demoRecord DeploymentStatus.pending] "acme-co-prod"
      DeploymentStatus.in_progress none none none 9).2
      (demoRecord DeploymentStatus.pending) rfl).1⟩

/-- C8: a destroy request whose `confirm` field is not true is rejected by
`DestroyRequest.validate_confirm` with the `VALIDATION_ERROR` message, so a
validated `DestroyRequest` never reaches any handler: for every handler the
guarded endpoint returns the error and the store unchanged (no state change,
no remote call). -/
theorem destroy_confirm_guard {α : Type} (db : Store) (confirm : Bool)
    (handler : Store → DestroyRequest → Store × α) (h : confirm ≠ true) :
    validate_confirm confirm =
        Except.error "confirm must be true to destroy infrastructure" ∧
    destroy_endpoint db confirm handler =
      (db, Except.error "confirm must be true to destroy infrastructure") := by
  have hc : confirm = false := by
    cases confirm
    · rfl
    · exact absurd rfl h
  subst hc
  exact ⟨rfl, rfl⟩

theorem destroy_confirm_guard_witness :
    (false ≠ true) ∧
    destroy_endpoint [demoRecord DeploymentStatus.succeeded] false
        (fun db _ => (db, ())) =
      ([demoRecord DeploymentStatus.succeeded],
        Except.error "confirm must be true to destroy infrastructure") :=
  ⟨Bool.false_ne_true,
    (destroy_confirm_guard [demoRecord DeploymentStatus.succeeded] false
      (fun db _ => (db, ())) Bool.false_ne_true).2⟩

/-- C9: the configuration response is built from every stored configuration
field except the secret `external_id`; two configurations differing only in
the secret produce identical responses, and pointwise so do list responses,
so the secret never appears in any (single or list) API response. -/
theorem config_secret_never_exposed :
    (∀ config : CustomerConfig,
      (CustomerConfigResponse.from_config config).customer_id = config.customer_id ∧
      (CustomerConfigResponse.from_config config).role_arn = config.role_arn ∧
      (CustomerConfigResponse.from_config config).aws_region = config.aws_region ∧
      (CustomerConfigResponse.from_config config).vpc_cidr = config.vpc_cidr ∧
      (CustomerConfigResponse.from_config config).availability_zones =
        config.availability_zones ∧
      (CustomerConfigResponse.from_config config).eks_version = config.eks_version ∧
      (CustomerConfigResponse.from_config config).eks_mode = config.eks_mode ∧
      (CustomerConfigResponse.from_config config).node_group_config =
        config.node_group_config ∧
      (CustomerConfigResponse.from_config config).created_at = config.created_at ∧
      (CustomerConfigResponse.from_config config).updated_at = config.updated_at) ∧
    (∀ c1 c2 : CustomerConfig, SameExceptSecret c1 c2 →
      CustomerConfigResponse.from_config c1 = CustomerConfigResponse.from_config c2) ∧
    (∀ l1 l2 : List CustomerConfig, List.Forall₂ SameExceptSecret l1 l2 →
      listConfigsResponse l1 = listConfigsResponse l2) := by
  refine ⟨fun config => ⟨rfl, rfl, rfl, rfl, rfl, rfl, rfl, rfl, rfl, rfl⟩,
    from_config_ignores_secret, fun l1 l2 h => ?_⟩
  unfold listConfigsResponse
  have hmap : l1.map CustomerConfigResponse.from_config =
      l2.map CustomerConfigResponse.from_config := by
    induction h with
    | nil => rfl
    | cons hab htl ih =>
        simp only [List.map_cons, ih, List.cons.injEq, and_true]
        exact from_config_ignores_secret _ _ hab
  rw [hmap, h.length_eq]

theorem config_secret_never_exposed_witness :
    SameExceptSecret (demoConfig "secret-one-111") (demoConfig "secret-two-222") ∧
    CustomerConfigResponse.from_config (demoConfig "secret-one-111") =
      CustomerConfigResponse.from_config (demoConfig "secret-two-222") :=
  ⟨rfl,
    config_secret_never_exposed.2.1 (demoConfig "secret-one-111")
      (demoConfig "secret-two-222") rfl⟩

/-- C10: field presence in `update_deployment_status` is decided by Python
truthiness, so an empty-string argument behaves exactly like an omitted one
(the stored value is unchanged); consequently a stored optional field is
never set to the empty string and never cleared; and when the remote trigger
response carries no id, the `""` defaulted by `result.get("id", "")` in
`run_deployment` is not persisted: the record's `pulumi_deployment_id`
stays `none`. -/
theorem truthiness_frame_semantics :
    (∀ db key status now,
      update_deployment_status db key status (some "") (some "") (some "") now =
        update_deployment_status db key status none none none now) ∧
    (∀ r status pid outs err now,
      ((applyUpdate r status pid outs err now).pulumi_deployment_id = some "" →
        r.pulumi_deployment_id = some "") ∧
      ((applyUpdate r status pid outs err now).pulumi_deployment_id = none →
        r.pulumi_deployment_id = none) ∧
      ((applyUpdate r status pid outs err now).outputs = some "" → r.outputs = some "") ∧
      ((applyUpdate r status pid outs err now).outputs = none → r.outputs = none) ∧
      ((applyUpdate r status pid outs err now).error_message = some "" →
        r.error_message = some "") ∧
      ((applyUpdate r status pid outs err now).error_message = none →
        r.error_message = none)) ∧
    (∀ (db : Store) (request : CustomerOnboardRequest) (remote : RunRemote)
        (t1 t2 : Nat) (r : CustomerDeploymentRecord) (resp : TriggerResponse),
      findByStack db (request.customer_name ++ "-" ++ request.environment) = some r →
      r.pulumi_deployment_id = none →
      remote.configureResult = Except.ok () →
      remote.triggerResult = Except.ok resp →
      resp.id = none →
      ∃ r', findByStack (run_deployment db request remote t1 t2).1
          (request.customer_name ++ "-" ++ request.environment) = some r' ∧
        r'.pulumi_deployment_id = none) := by
  refine ⟨?_, ?_, ?_⟩
  · intro db key status now
    cases h : findByStack db key with
    | none => rw [update_not_found status _ _ _ now h, update_not_found status _ _ _ now h]
    | some r =>
        rw [update_found status _ _ _ now h, update_found status _ _ _ now h,
          applyUpdate_empty]
  · intro r status pid outs err now
    refine ⟨?_, ?_, ?_, ?_, ?_, ?_⟩ <;>
      · intro hp
        by_cases ht : truthy pid = true <;> by_cases ht2 : truthy outs = true <;>
          by_cases ht3 : truthy err = true <;>
          simp_all [applyUpdate, truthy]
  · intro db request remote t1 t2 r resp h hpid hconf htrig hid
    have h1 := findByStack_update_self DeploymentStatus.in_progress none none none t1 h
    simp only [run_deployment, hconf, htrig, hid]
    refine ⟨applyUpdate (applyUpdate r DeploymentStatus.in_progress none none none t1)
      DeploymentStatus.in_progress (some (Option.getD none "")) none none t2, ?_, ?_⟩
    · exact findByStack_update_self _ _ _ _ _ h1
    · simp [applyUpdate, truthy, hpid]

theorem truthiness_frame_semantics_witness :
    update_deployment_status [demoRecord DeploymentStatus.pending] "acme-co-prod"
        DeploymentStatus.failed (some "") (some "") (some "") 4 =
      update_deployment_status [demoRecord DeploymentStatus.pending] "acme-co-prod"
        DeploymentStatus.failed none none none 4 ∧
    (∃ r', findByStack (run_deployment [demoRecord DeploymentStatus.pending] demoRequest
        { ensureResult := Except.ok ()
          configureResult := Except.ok ()
          triggerResult := Except.ok { id := none } } 1 2).1
        (demoRequest.customer_name ++ "-" ++ demoRequest.environment) = some r' ∧
      r'.pulumi_deployment_id = none) :=
  ⟨truthiness_frame_semantics.1 [demoRecord DeploymentStatus.pending] "acme-co-prod"
      DeploymentStatus.failed 4,
    truthiness_frame_semantics.2.2 [demoRecord DeploymentStatus.pending] demoRequest
      { ensureResult := Except.ok ()
        configureResult := Except.ok ()
        triggerResult := Except.ok { id := none } } 1 2
      (demoRecord DeploymentStatus.pending) { id := none } rfl rfl rfl rfl rfl⟩

/-- An IN_PROGRESS record carrying a remote deployment id. -/
def demoPolling : CustomerDeploymentRecord :=
  { demoRecord DeploymentStatus.in_progress with pulumi_deployment_id := some "dep-1" }

/-- A poll answering `failed` with an empty `message`. -/
def demoPollRemoteEmptyMsg : PollRemote :=
  { pollResult := Except.ok { status := some "failed", message := some "" }
    outputsResult := Except.ok [] }

/-- C5 counterexample: on a poll result of `failed` whose `message` is the
empty string, the record is updated to FAILED but the failure detail is NOT
stored (`if error_message:` skips the empty string): the returned record has
`error_message = none`, against the claim that a failed poll updates the
record to FAILED with the failure detail. -/
theorem get_status_empty_detail_cex :
    (get_deployment_status [demoPolling] "acme-co" "prod" demoPollRemoteEmptyMsg 3).2 =
      GetStatusOutcome.found
        { demoPolling with status := DeploymentStatus.failed, updated_at := 3 } true ∧
    ({ demoPolling with status := DeploymentStatus.failed, updated_at := 3 }
        : CustomerDeploymentRecord).status = DeploymentStatus.failed ∧
    ({ demoPolling with status := DeploymentStatus.failed, updated_at := 3 }
        : CustomerDeploymentRecord).error_message = none := by
  refine ⟨?_, rfl, rfl⟩
  decide

/-- C5 (amended): on `GetStatus` of an existing job the remote engine is
polled exactly once if and only if the stored status is IN_PROGRESS and the
stored `remoteJobId` is present (truthy); a `succeeded` poll updates the
record to SUCCEEDED with the fetched outputs; a `failed` poll updates it to
FAILED and stores the failure detail whenever that detail is non-empty (an
empty message leaves `errorDetail` unchanged); a `running` (or any other)
poll status leaves everything unchanged; any error raised by the poll or the
outputs fetch is swallowed and the previously stored record is returned with
the store unmodified; and a record whose status is not IN_PROGRESS (in
particular any terminal status) is never changed. -/
theorem get_status_reconciliation (db : Store) (cn env : String) (remote : PollRemote)
    (now : Nat) (r : CustomerDeploymentRecord)
    (h : get_deployment db cn env = some r) :
    (¬(r.status = DeploymentStatus.in_progress ∧ truthy r.pulumi_deployment_id = true) →
      get_deployment_status db cn env remote now = (db, GetStatusOutcome.found r false)) ∧
    (r.status = DeploymentStatus.in_progress → truthy r.pulumi_deployment_id = true →
      (∀ e, remote.pollResult = Except.error e →
        get_deployment_status db cn env remote now = (db, GetStatusOutcome.found r true)) ∧
      (∀ st, remote.pollResult = Except.ok st →
        (st.status.getD "" = "succeeded" →
          (∀ e2, remote.outputsResult = Except.error e2 →
            get_deployment_status db cn env remote now =
              (db, GetStatusOutcome.found r true)) ∧
          (∀ outs, remote.outputsResult = Except.ok outs →
            get_deployment_status db cn env remote now =
              ((update_deployment_status db r.stack_name DeploymentStatus.succeeded
                  none (some (json_dumps outs)) none now).1,
                GetStatusOutcome.found
                  (applyUpdate r DeploymentStatus.succeeded none (some (json_dumps outs))
                    none now) true) ∧
            (applyUpdate r DeploymentStatus.succeeded none (some (json_dumps outs))
                none now).status = DeploymentStatus.succeeded ∧
            (applyUpdate r DeploymentStatus.succeeded none (some (json_dumps outs))
                none now).outputs = some (json_dumps outs))) ∧
        (st.status.getD "" = "failed" →
          get_deployment_status db cn env remote now =
            ((update_deployment_status db r.stack_name DeploymentStatus.failed none none
                (some (st.message.getD "Deployment failed")) now).1,
              GetStatusOutcome.found
                (applyUpdate r DeploymentStatus.failed none none
                  (some (st.message.getD "Deployment failed")) now) true) ∧
          (applyUpdate r DeploymentStatus.failed none none
              (some (st.message.getD "Deployment failed")) now).status =
            DeploymentStatus.failed ∧
          (st.message.getD "Deployment failed" ≠ "" →
            (applyUpdate r DeploymentStatus.failed none none
                (some (st.message.getD "Deployment failed")) now).error_message =
              some (st.message.getD "Deployment failed"))) ∧
        (st.status.getD "" ≠ "succeeded" → st.status.getD "" ≠ "failed" →
          get_deployment_status db cn env remote now =
            (db, GetStatusOutcome.found r true)))) := by
  have hkey : r.stack_name = cn ++ "-" ++ env := findByStack_key h
  have h' : findByStack db r.stack_name = some r := by rw [hkey]; exact h
  constructor
  · intro hncond
    simp only [get_deployment_status, h]
    rw [if_neg hncond]
  · intro h1 h2
    have hcond : r.status = DeploymentStatus.in_progress ∧
        truthy r.pulumi_deployment_id = true := ⟨h1, h2⟩
    refine ⟨?_, ?_⟩
    · intro e he
      simp only [get_deployment_status, h, he]
      rw [if_pos hcond]
    · intro st hst
      refine ⟨?_, ?_, ?_⟩
      · intro hs
        constructor
        · intro e2 he2
          simp only [get_deployment_status, h, hst, he2, hs]
          rw [if_pos hcond]
          simp
        · intro outs houts
          have hupd := findByStack_update_self DeploymentStatus.succeeded
            none (some (json_dumps outs)) none now h'
          have htr : truthy (some (json_dumps outs)) = true := by
            simp [truthy, json_dumps_ne_empty outs]
          refine ⟨?_, rfl, by simp [applyUpdate, htr]⟩
          simp only [get_deployment_status, h, hst, houts, hs]
          rw [if_pos hcond]
          simp only [if_pos rfl, get_deployment, ← hkey, hupd, Option.getD_some]
          simp
      · intro hs
        have hupd := findByStack_update_self DeploymentStatus.failed none none
          (some (st.message.getD "Deployment failed")) now h'
        have hne : ¬(st.status.getD "" = "succeeded") := by
          rw [hs]; decide
        refine ⟨?_, rfl, ?_⟩
        · simp only [get_deployment_status, h, hst, hs]
          rw [if_pos hcond]
          simp only [if_neg (by decide : ¬("failed" : String) = "succeeded"), if_pos rfl,
            get_deployment, ← hkey, hupd, Option.getD_some]
          simp
        · intro hmsg
          simp [applyUpdate, truthy, hmsg]
      · intro hns hnf
        simp only [get_deployment_status, h, hst]
        rw [if_pos hcond]
        rw [if_neg hns, if_neg hnf]

theorem get_status_reconciliation_witness :
    get_deployment [demoRecord DeploymentStatus.succeeded] "acme-co" "prod" =
        some (demoRecord DeploymentStatus.succeeded) ∧
    ¬((demoRecord DeploymentStatus.succeeded).status = DeploymentStatus.in_progress ∧
      truthy (demoRecord DeploymentStatus.succeeded).pulumi_deployment_id = true) ∧
    get_deployment_status [demoRecord DeploymentStatus.succeeded] "acme-co" "prod"
        { pollResult := Except.error "down", outputsResult := Except.error "down" } 3 =
      ([demoRecord DeploymentStatus.succeeded],
        GetStatusOutcome.found (demoRecord DeploymentStatus.succeeded) false) :=
  ⟨rfl, by decide,
    (get_status_reconciliation [demoRecord DeploymentStatus.succeeded] "acme-co" "prod"
      { pollResult := Except.error "down", outputsResult := Except.error "down" } 3
      (demoRecord DeploymentStatus.succeeded) rfl).1 (by decide)⟩

/-- A remote engine whose stack-creation call raises while the two later
calls succeed. -/
def demoRunRemoteEnsureFails : RunRemote :=
  { ensureResult := Except.error "ensure boom"
    configureResult := Except.ok ()
    triggerResult := Except.ok { id := some "dep-1" } }

/-- C4 counterexample: when the first step (`create_stack`, ensure-project)
fails, the failure is swallowed by `try ... except Exception: pass`, both
later steps still execute, and the job does not become FAILED: the claim
that the failure of any one of the three steps sets FAILED and halts the
sequence is false at this input. -/
theorem run_ensure_failure_not_halting_cex :
    demoRunRemoteEnsureFails.ensureResult = Except.error "ensure boom" ∧
    run_deployment [demoRecord DeploymentStatus.pending] demoRequest
        demoRunRemoteEnsureFails 1 2 =
      ([{ demoRecord DeploymentStatus.pending with
            status := DeploymentStatus.in_progress
            pulumi_deployment_id := some "dep-1"
            updated_at := 2 }],
        [Step.ensureProject, Step.applyConfig, Step.trigger]) ∧
    ({ demoRecord DeploymentStatus.pending with
        status := DeploymentStatus.in_progress
        pulumi_deployment_id := some "dep-1"
        updated_at := 2 } : CustomerDeploymentRecord).status ≠ DeploymentStatus.failed ∧
    Step.applyConfig ∈ [Step.ensureProject, Step.applyConfig, Step.trigger] := by
  refine ⟨rfl, by decide, by decide, by decide⟩

/-- C4 (amended): in the background trigger sequence, a failure of the
apply-configuration step or of the trigger step sets the job's status to
FAILED (with the failure message stored in `errorDetail` whenever it is
non-empty) and halts the run, so no later step of that run executes and no
step is retried (each step appears at most once in the trace); a failure of
the ensure-project step, however, is swallowed and the sequence continues
(and when the two later steps succeed the job stays IN_PROGRESS). -/
theorem run_deployment_halt_semantics (db : Store) (request : CustomerOnboardRequest)
    (remote : RunRemote) (t1 t2 : Nat) (r : CustomerDeploymentRecord)
    (h : findByStack db (request.customer_name ++ "-" ++ request.environment) = some r) :
    (∀ e, remote.configureResult = Except.error e →
      (run_deployment db request remote t1 t2).2 = [Step.ensureProject, Step.applyConfig] ∧
      Step.trigger ∉ (run_deployment db request remote t1 t2).2 ∧
      (∃ r', findByStack (run_deployment db request remote t1 t2).1
          (request.customer_name ++ "-" ++ request.environment) = some r' ∧
        r'.status = DeploymentStatus.failed ∧
        (e ≠ "" → r'.error_message = some e))) ∧
    (∀ e, remote.configureResult = Except.ok () → remote.triggerResult = Except.error e →
      (run_deployment db request remote t1 t2).2 =
        [Step.ensureProject, Step.applyConfig, Step.trigger] ∧
      (∃ r', findByStack (run_deployment db request remote t1 t2).1
          (request.customer_name ++ "-" ++ request.environment) = some r' ∧
        r'.status = DeploymentStatus.failed ∧
        (e ≠ "" → r'.error_message = some e))) ∧
    (∀ resp, remote.configureResult = Except.ok () →
      remote.triggerResult = Except.ok resp →
      (run_deployment db request remote t1 t2).2 =
        [Step.ensureProject, Step.applyConfig, Step.trigger] ∧
      (∃ r', findByStack (run_deployment db request remote t1 t2).1
          (request.customer_name ++ "-" ++ request.environment) = some r' ∧
        r'.status = DeploymentStatus.in_progress)) ∧
    (run_deployment db request remote t1 t2).2.Nodup := by
  have h1 := findByStack_update_self DeploymentStatus.in_progress none none none t1 h
  refine ⟨?_, ?_, ?_, ?_⟩
  · intro e he
    simp only [run_deployment, he]
    refine ⟨trivial, by decide, ?_⟩
    refine ⟨applyUpdate (applyUpdate r DeploymentStatus.in_progress none none none t1)
      DeploymentStatus.failed none none (some e) t2,
      findByStack_update_self _ _ _ _ _ h1, rfl, ?_⟩
    intro hne
    simp [applyUpdate, truthy, hne]
  · intro e hc ht
    simp only [run_deployment, hc, ht]
    refine ⟨trivial, ?_⟩
    refine ⟨applyUpdate (applyUpdate r DeploymentStatus.in_progress none none none t1)
      DeploymentStatus.failed none none (some e) t2,
      findByStack_update_self _ _ _ _ _ h1, rfl, ?_⟩
    intro hne
    simp [applyUpdate, truthy, hne]
  · intro resp hc ht
    simp only [run_deployment, hc, ht]
    exact ⟨trivial,
      ⟨applyUpdate (applyUpdate r DeploymentStatus.in_progress none none none t1)
        DeploymentStatus.in_progress (some (resp.id.getD "")) none none t2,
        findByStack_update_self _ _ _ _ _ h1, rfl⟩⟩
  · cases hc : remote.configureResult with
    | error e =>
        simp only [run_deployment, hc]
        decide
    | ok u =>
        cases ht : remote.triggerResult with
        | error e =>
            simp only [run_deployment, hc, ht]
            decide
        | ok resp =>
            simp only [run_deployment, hc, ht]
            decide

theorem run_deployment_halt_semantics_witness :
    findByStack [demoRecord DeploymentStatus.pending]
        (demoRequest.customer_name ++ "-" ++ demoRequest.environment) =
      some (demoRecord DeploymentStatus.pending) ∧
    ("configure boom" ≠ "") ∧
    ((run_deployment [demoRecord DeploymentStatus.pending] demoRequest
        { ensureResult := Except.ok ()
          configureResult := Except.error "configure boom"
          triggerResult := Except.ok { id := some "dep-1" } } 1 2).2 =
      [Step.ensureProject, Step.applyConfig] ∧
    Step.trigger ∉ (run_deployment [demoRecord DeploymentStatus.pending] demoRequest
        { ensureResult := Except.ok ()
          configureResult := Except.error "configure boom"
          triggerResult := Except.ok { id := some "dep-1" } } 1 2).2 ∧
    (∃ r', findByStack (run_deployment [demoRecord DeploymentStatus.pending] demoRequest
        { ensureResult := Except.ok ()
          configureResult := Except.error "configure boom"
          triggerResult := Except.ok { id := some "dep-1" } } 1 2).1
        (demoRequest.customer_name ++ "-" ++ demoRequest.environment) = some r' ∧
      r'.status = DeploymentStatus.failed ∧
      ("configure boom" ≠ "" → r'.error_message = some "configure boom"))) :=
  ⟨rfl, by decide,
    (run_deployment_halt_semantics [demoRecord DeploymentStatus.pending] demoRequest
      { ensureResult := Except.ok ()
        configureResult := Except.error "configure boom"
        triggerResult := Except.ok { id := some "dep-1" } } 1 2
      (demoRecord DeploymentStatus.pending) rfl).1 "configure boom" rfl⟩

/-- The FAILED dev-environment record of the resubmission scenario. -/
def demoFailedDev : CustomerDeploymentRecord :=
  { demoRecord DeploymentStatus.failed with
    environment := "dev"
    stack_name := "acme-co-dev"
    error_message := some "boom" }

/-- The resubmission request for `(acme-co, dev)`. -/
def demoDevRequest : CustomerOnboardRequest :=
  { demoRequest with environment := "dev" }

/-- C3 (code bug): resubmitting a FAILED job is rejected.  The explicit
guards in `onboard_customer` deliberately let a FAILED record through
(only IN_PROGRESS and SUCCEEDED conflict), but `create_deployment` then
unconditionally raises `ValueError` because a row with the same
`stack_name` exists, and the handler turns that into a 409 before
scheduling any background task — so a FAILED job can never be resubmitted,
against the claim (and the spec's Submit step 2, "create or reuse"). -/
theorem resubmit_failed_rejected :
    demoFailedDev.status = DeploymentStatus.failed ∧
    onboard_customer [demoFailedDev] demoDevRequest 10 2 =
      ([demoFailedDev],
        OnboardOutcome.conflictCreate
          ("Deployment " ++ ("acme-co" ++ "-" ++ "dev") ++ " already exists"), []) := by
  exact ⟨rfl, by decide⟩

/-! ## The orchestrator as a transition system

The claims about reachable job records quantify over every interleaving of
the synchronous Submit handler, the background trigger sequence (which
suspends at each of its three awaited remote calls) and the status
endpoint's reconciliation.  `TaskState.pc` records how far a scheduled
`run_deployment` task has progressed: 0 = queued, 1 = IN_PROGRESS written
and awaiting `create_stack`, 2 = awaiting `configure_deployment_settings`
(the `create_stack` outcome was swallowed), 3 = awaiting
`trigger_deployment`. -/

structure TaskState where
  request : CustomerOnboardRequest
  pc : Nat
  deriving DecidableEq, Repr

/-- The jobKey a task's `run_deployment` works on. -/
def TaskState.key (t : TaskState) : String :=
  t.request.customer_name ++ "-" ++ t.request.environment

/-- Durable store plus the queue of in-flight background tasks. -/
structure Sys where
  store : Store
  tasks : List TaskState
  deriving DecidableEq, Repr

/-- States reachable through the orchestrator's operations, from an empty
store.  When `nice = true`, every failure message captured from the remote
engine is non-empty (the hypotheses are vacuous for `nice = false`, which is
plain reachability). -/
inductive Reachable (nice : Bool) : Sys → Prop where
  | init : Reachable nice { store := [], tasks := [] }
  | onboard {s : Sys} (request : CustomerOnboardRequest) (now nextId : Nat)
      (h : Reachable nice s) :
      Reachable nice
        { store := (onboard_customer s.store request now nextId).1
          tasks := s.tasks ++ ((onboard_customer s.store request now nextId).2.2).map
            (fun t => { request := t.request, pc := 0 }) }
  | task_start {s : Sys} (pre post : List TaskState) (t : TaskState) (tNow : Nat)
      (h : Reachable nice s) (hs : s.tasks = pre ++ t :: post) (hpc : t.pc = 0) :
      Reachable nice
        { store := (update_deployment_status s.store t.key DeploymentStatus.in_progress
            none none none tNow).1
          tasks := pre ++ { t with pc := 1 } :: post }
  | task_ensure_done {s : Sys} (pre post : List TaskState) (t : TaskState)
      (h : Reachable nice s) (hs : s.tasks = pre ++ t :: post) (hpc : t.pc = 1) :
      Reachable nice { store := s.store, tasks := pre ++ { t with pc := 2 } :: post }
  | task_configure_fail {s : Sys} (pre post : List TaskState) (t : TaskState)
      (e : String) (tNow : Nat) (h : Reachable nice s) (hs : s.tasks = pre ++ t :: post)
      (hpc : t.pc = 2) (hnice : nice = true → e ≠ "") :
      Reachable nice
        { store := (update_deployment_status s.store t.key DeploymentStatus.failed
            none none (some e) tNow).1
          tasks := pre ++ post }
  | task_configure_done {s : Sys} (pre post : List TaskState) (t : TaskState)
      (h : Reachable nice s) (hs : s.tasks = pre ++ t :: post) (hpc : t.pc = 2) :
      Reachable nice { store := s.store, tasks := pre ++ { t with pc := 3 } :: post }
  | task_trigger_fail {s : Sys} (pre post : List TaskState) (t : TaskState)
      (e : String) (tNow : Nat) (h : Reachable nice s) (hs : s.tasks = pre ++ t :: post)
      (hpc : t.pc = 3) (hnice : nice = true → e ≠ "") :
      Reachable nice
        { store := (update_deployment_status s.store t.key DeploymentStatus.failed
            none none (some e) tNow).1
          tasks := pre ++ post }
  | task_trigger_done {s : Sys} (pre post : List TaskState) (t : TaskState)
      (resp : TriggerResponse) (tNow : Nat) (h : Reachable nice s)
      (hs : s.tasks = pre ++ t :: post) (hpc : t.pc = 3) :
      Reachable nice
        { store := (update_deployment_status s.store t.key DeploymentStatus.in_progress
            (some (resp.id.getD "")) none none tNow).1
          tasks := pre ++ post }
  | get_status {s : Sys} (cn env : String) (remote : PollRemote) (now : Nat)
      (h : Reachable nice s)
      (hnice : nice = true →
        ∀ st, remote.pollResult = Except.ok st → st.message ≠ some "") :
      Reachable nice
        { store := (get_deployment_status s.store cn env remote now).1, tasks := s.tasks }

/-- The per-record shape invariant (`nice` adds: FAILED rows carry detail). -/
def RecordInv (nice : Bool) (r : CustomerDeploymentRecord) : Prop :=
  (r.outputs ≠ none → r.status = DeploymentStatus.succeeded) ∧
  (r.error_message ≠ none → r.status = DeploymentStatus.failed) ∧
  (r.status = DeploymentStatus.succeeded → r.outputs ≠ none) ∧
  (nice = true → r.status = DeploymentStatus.failed → r.error_message ≠ none)

/-- While a background task is in flight, its record is fresh: no remote id,
no outputs, no error, and PENDING before the task starts, IN_PROGRESS after. -/
def TaskRecInv (store : Store) (t : TaskState) : Prop :=
  ∃ r, findByStack store t.key = some r ∧
    r.pulumi_deployment_id = none ∧ r.outputs = none ∧ r.error_message = none ∧
    (t.pc = 0 → r.status = DeploymentStatus.pending) ∧
    (t.pc ≠ 0 → r.status = DeploymentStatus.in_progress)

/-- The inductive system invariant. -/
def SysInv (nice : Bool) (s : Sys) : Prop :=
  (s.store.map CustomerDeploymentRecord.stack_name).Nodup ∧
  (∀ r ∈ s.store, RecordInv nice r) ∧
  (∀ t ∈ s.tasks, TaskRecInv s.store t) ∧
  (s.tasks.map TaskState.key).Nodup

theorem RecordInv_mk (nice : Bool) (r : CustomerDeploymentRecord)
    (h1 : r.outputs = none) (h2 : r.error_message = none)
    (h3 : r.status ≠ DeploymentStatus.succeeded)
    (h4 : r.status ≠ DeploymentStatus.failed) : RecordInv nice r :=
  ⟨fun hc => absurd h1 hc, fun hc => absurd h2 hc,
    fun hc => absurd hc h3, fun _ hc => absurd hc h4⟩

theorem key_not_in_rest {pre post : List TaskState} {t : TaskState}
    (h : ((pre ++ t :: post).map TaskState.key).Nodup) :
    ∀ u ∈ pre ++ post, u.key ≠ t.key := by
  intro u hu he
  rw [List.map_append, List.map_cons, List.nodup_append] at h
  rcases List.mem_append.mp hu with hp | hp
  · exact h.2.2 (List.mem_map_of_mem _ hp) (by rw [he]; exact List.mem_cons_self _ _)
  · have hn := h.2.1
    rw [List.nodup_cons] at hn
    exact hn.1 (he ▸ List.mem_map_of_mem _ hp)

theorem task_keys_nodup_replace {pre post : List TaskState} {t t' : TaskState}
    (hk : t'.key = t.key) (h : ((pre ++ t :: post).map TaskState.key).Nodup) :
    ((pre ++ t' :: post).map TaskState.key).Nodup := by
  have he : (pre ++ t' :: post).map TaskState.key =
      (pre ++ t :: post).map TaskState.key := by
    simp [hk]
  rwa [he]

theorem task_keys_nodup_remove {pre post : List TaskState} {t : TaskState}
    (h : ((pre ++ t :: post).map TaskState.key).Nodup) :
    ((pre ++ post).map TaskState.key).Nodup :=
  h.sublist ((List.Sublist.append_left (List.sublist_cons_self t post) pre).map _)

theorem mem_middle_of_mem_sides {pre post : List TaskState} {t u : TaskState}
    (hu : u ∈ pre ++ post) : u ∈ pre ++ t :: post := by
  rcases List.mem_append.mp hu with hp | hp
  · exact List.mem_append.mpr (Or.inl hp)
  · exact List.mem_append.mpr (Or.inr (List.mem_cons_of_mem _ hp))

theorem findByStack_append_of_some {db : Store} {key : String}
    {r : CustomerDeploymentRecord} (l : Store) (h : findByStack db key = some r) :
    findByStack (db ++ l) key = some r := by
  unfold findByStack at h ⊢
  rw [List.find?_append, h]
  rfl

theorem findByStack_append_of_none {db : Store} {key : String} (l : Store)
    (h : findByStack db key = none) :
    findByStack (db ++ l) key = findByStack l key := by
  unfold findByStack at h ⊢
  rw [List.find?_append, h]
  rfl

/-- The Submit handler either leaves the store and the task queue untouched
(all three 409 paths) or, when the jobKey is absent, appends exactly one
fresh PENDING record and schedules exactly one background task. -/
theorem onboard_store_cases (db : Store) (request : CustomerOnboardRequest)
    (now nextId : Nat) :
    ((onboard_customer db request now nextId).1 = db ∧
      (onboard_customer db request now nextId).2.2 = []) ∨
    (findByStack db (request.customer_name ++ "-" ++ request.environment) = none ∧
      (onboard_customer db request now nextId).1 =
        db ++ [newDeploymentRecord request.customer_name request.environment
          request.aws_region request.role_arn now nextId] ∧
      (onboard_customer db request now nextId).2.2 = [{ request := request }]) := by
  unfold onboard_customer
  cases hf : get_deployment db request.customer_name request.environment with
  | none =>
      right
      unfold get_deployment at hf
      refine ⟨hf, ?_, ?_⟩ <;> simp [create_deployment, hf]
  | some r =>
      left
      by_cases h1 : r.status = DeploymentStatus.in_progress
      · simp [h1]
      · by_cases h2 : r.status = DeploymentStatus.succeeded
        · simp [h1, h2]
        · unfold get_deployment at hf
          simp [h1, h2, create_deployment, hf]

/-- The status endpoint either leaves the store untouched, or reconciles an
IN_PROGRESS record that has a truthy remote id into SUCCEEDED (with fetched
outputs) or FAILED (with the poll's detail). -/
theorem get_status_store_cases (db : Store) (cn env : String) (remote : PollRemote)
    (now : Nat) :
    (get_deployment_status db cn env remote now).1 = db ∨
    ∃ r st, findByStack db (cn ++ "-" ++ env) = some r ∧
      r.status = DeploymentStatus.in_progress ∧ truthy r.pulumi_deployment_id = true ∧
      remote.pollResult = Except.ok st ∧
      ((∃ outs, remote.outputsResult = Except.ok outs ∧
          (get_deployment_status db cn env remote now).1 =
            (update_deployment_status db r.stack_name DeploymentStatus.succeeded
              none (some (json_dumps outs)) none now).1) ∨
        ((get_deployment_status db cn env remote now).1 =
            (update_deployment_status db r.stack_name DeploymentStatus.failed none none
              (some (st.message.getD "Deployment failed")) now).1)) := by
  cases hf : get_deployment db cn env with
  | none =>
      left
      simp [get_deployment_status, hf]
  | some r =>
      by_cases hcond : r.status = DeploymentStatus.in_progress ∧
          truthy r.pulumi_deployment_id = true
      · cases hp : remote.pollResult with
        | error e =>
            left
            simp only [get_deployment_status, hf, hp]
            rw [if_pos hcond]
        | ok st =>
            by_cases hs1 : st.status.getD "" = "succeeded"
            · cases ho : remote.outputsResult with
              | error e2 =>
                  left
                  simp only [get_deployment_status, hf, hp, hs1, ho]
                  rw [if_pos hcond]
                  simp
              | ok outs =>
                  right
                  refine ⟨r, st, hf, hcond.1, hcond.2, rfl, Or.inl ⟨outs, rfl, ?_⟩⟩
                  simp only [get_deployment_status, hf, hp, hs1, ho]
                  rw [if_pos hcond]
                  simp
            · by_cases hs2 : st.status.getD "" = "failed"
              · right
                refine ⟨r, st, hf, hcond.1, hcond.2, rfl, Or.inr ?_⟩
                simp only [get_deployment_status, hf, hp]
                rw [if_pos hcond]
                rw [if_neg hs1, if_pos hs2]
              · left
                simp only [get_deployment_status, hf, hp]
                rw [if_pos hcond]
                rw [if_neg hs1, if_neg hs2]
      · left
        simp only [get_deployment_status, hf]
        rw [if_neg hcond]

theorem recordInv_applyUpdate_in_progress (nice : Bool) (r : CustomerDeploymentRecord)
    (pid : Option String) (tNow : Nat) (houts : r.outputs = none)
    (herr : r.error_message = none) :
    RecordInv nice (applyUpdate r DeploymentStatus.in_progress pid none none tNow) := by
  refine RecordInv_mk nice _ ?_ ?_ ?_ ?_
  · simp [applyUpdate, truthy, houts]
  · simp [applyUpdate, truthy, herr]
  · simp [applyUpdate]
  · simp [applyUpdate]

theorem recordInv_applyUpdate_failed (nice : Bool) (r : CustomerDeploymentRecord)
    (e : String) (tNow : Nat) (houts : r.outputs = none) (_herr : r.error_message = none)
    (hnice : nice = true → e ≠ "") :
    RecordInv nice (applyUpdate r DeploymentStatus.failed none none (some e) tNow) := by
  refine ⟨?_, fun _ => rfl, ?_, ?_⟩
  · intro hc
    exact absurd (show (applyUpdate r DeploymentStatus.failed none none (some e)
      tNow).outputs = none by simp [applyUpdate, truthy, houts]) hc
  · intro hc
    simp [applyUpdate] at hc
  · intro hn _
    have he := hnice hn
    simp [applyUpdate, truthy, he]

theorem recordInv_applyUpdate_succeeded (nice : Bool) (r : CustomerDeploymentRecord)
    (outs : String) (now : Nat) (herr : r.error_message = none) (hne : outs ≠ "") :
    RecordInv nice
      (applyUpdate r DeploymentStatus.succeeded none (some outs) none now) := by
  refine ⟨fun _ => rfl, ?_, ?_, ?_⟩
  · intro hc
    exact absurd (show (applyUpdate r DeploymentStatus.succeeded none (some outs)
      none now).error_message = none by simp [applyUpdate, truthy, herr]) hc
  · intro _
    simp [applyUpdate, truthy, hne]
  · intro _ hc
    simp [applyUpdate] at hc

theorem recordInv_update (nice : Bool) {store : Store} {key : String}
    {r : CustomerDeploymentRecord} (status : DeploymentStatus)
    (pid outs err : Option String) (now : Nat)
    (hf : findByStack store key = some r)
    (hrec : ∀ x ∈ store, RecordInv nice x)
    (hnew : RecordInv nice (applyUpdate r status pid outs err now)) :
    ∀ x ∈ (update_deployment_status store key status pid outs err now).1,
      RecordInv nice x := by
  intro x hx
  rcases mem_update_store status pid outs err now hx with hold | ⟨r0, hr0, hxe⟩
  · exact hrec x hold
  · rw [hf] at hr0
    injection hr0 with hre
    subst hxe
    rw [← hre]
    exact hnew

theorem taskRecInv_update_other {store : Store} {t0key : String}
    (status : DeploymentStatus) (pid outs err : Option String) (now : Nat)
    {u : TaskState} (hne : u.key ≠ t0key) (h : TaskRecInv store u) :
    TaskRecInv (update_deployment_status store t0key status pid outs err now).1 u := by
  obtain ⟨ru, hfu, rest⟩ := h
  exact ⟨ru, by rw [findByStack_update_ne status pid outs err now hne]; exact hfu, rest⟩

theorem sysInv_init (nice : Bool) : SysInv nice { store := [], tasks := [] } := by
  refine ⟨List.nodup_nil, ?_, ?_, List.nodup_nil⟩ <;> intro x hx <;> exact absurd hx
    (List.not_mem_nil x)

theorem sysInv_onboard (nice : Bool) {s : Sys} (request : CustomerOnboardRequest)
    (now nextId : Nat) (h : SysInv nice s) :
    SysInv nice
      { store := (onboard_customer s.store request now nextId).1
        tasks := s.tasks ++ ((onboard_customer s.store request now nextId).2.2).map
          (fun t => { request := t.request, pc := 0 }) } := by
  obtain ⟨hnd, hrec, htasks, htk⟩ := h
  rcases onboard_store_cases s.store request now nextId with ⟨h1, h2⟩ | ⟨hf, h1, h2⟩
  · rw [h1, h2]
    simp only [List.map_nil, List.append_nil]
    exact ⟨hnd, hrec, htasks, htk⟩
  · rw [h1, h2]
    have hkeys : ∀ x ∈ s.store,
        ¬x.stack_name = request.customer_name ++ "-" ++ request.environment := by
      intro x hx he
      exact absurd (by simp [he] : (fun rr : CustomerDeploymentRecord =>
        rr.stack_name == request.customer_name ++ "-" ++ request.environment) x = true)
        (by simpa using List.find?_eq_none.mp hf x hx)
    refine ⟨?_, ?_, ?_, ?_⟩
    · rw [List.map_append, List.nodup_append]
      refine ⟨hnd, List.nodup_singleton _, ?_⟩
      intro a ha hb
      simp only [List.map_cons, List.map_nil, List.mem_singleton] at hb
      rcases List.mem_map.mp ha with ⟨x, hx, hxa⟩
      exact hkeys x hx (by rw [← hxa] at hb; exact hb.trans rfl)
    · intro x hx
      rcases List.mem_append.mp hx with hold | hnew
      · exact hrec x hold
      · rw [List.mem_singleton] at hnew
        subst hnew
        exact RecordInv_mk nice _ rfl rfl (by simp [newDeploymentRecord])
          (by simp [newDeploymentRecord])
    · intro u hu
      simp only [List.map_cons, List.map_nil] at hu
      rcases List.mem_append.mp hu with hold | hnew
      · obtain ⟨ru, hfu, rest⟩ := htasks u hold
        exact ⟨ru, findByStack_append_of_some _ hfu, rest⟩
      · rw [List.mem_singleton] at hnew
        subst hnew
        refine ⟨newDeploymentRecord request.customer_name request.environment
          request.aws_region request.role_arn now nextId, ?_, rfl, rfl, rfl,
          fun _ => rfl, fun hc => absurd rfl hc⟩
        rw [show TaskState.key { request := request, pc := 0 } =
          request.customer_name ++ "-" ++ request.environment from rfl,
          findByStack_append_of_none _ hf]
        simp [findByStack, List.find?, newDeploymentRecord]
    · simp only [List.map_cons, List.map_nil, List.map_append, List.nodup_append]
      refine ⟨htk, List.nodup_singleton _, ?_⟩
      intro a ha hb
      simp only [List.map_cons, List.map_nil, List.mem_singleton] at hb
      rcases List.mem_map.mp ha with ⟨u, hu, hua⟩
      obtain ⟨ru, hfu, -⟩ := htasks u hu
      rw [← hua] at hb
      rw [show TaskState.key { request := request, pc := 0 } =
        request.customer_name ++ "-" ++ request.environment from rfl] at hb
      rw [hb, hf] at hfu
      exact Option.noConfusion hfu

theorem sysInv_task_start (nice : Bool) {s : Sys} (pre post : List TaskState)
    (t : TaskState) (tNow : Nat) (h : SysInv nice s) (hs : s.tasks = pre ++ t :: post)
    (_hpc : t.pc = 0) :
    SysInv nice
      { store := (update_deployment_status s.store t.key DeploymentStatus.in_progress
          none none none tNow).1
        tasks := pre ++ { t with pc := 1 } :: post } := by
  obtain ⟨hnd, hrec, htasks, htk⟩ := h
  rw [hs] at htasks htk
  obtain ⟨r, hfind, hpid, houts, herr, hp0, hpn⟩ :=
    htasks t (List.mem_append.mpr (Or.inr (List.mem_cons_self _ _)))
  refine ⟨?_, ?_, ?_, @task_keys_nodup_replace pre post t { t with pc := 1 } rfl htk⟩
  · rw [map_stack_update]
    exact hnd
  · exact recordInv_update nice _ _ _ _ _ hfind hrec
      (recordInv_applyUpdate_in_progress nice r none tNow houts herr)
  · intro u hu
    rcases List.mem_append.mp hu with hp | hp
    · exact taskRecInv_update_other _ _ _ _ _
        (key_not_in_rest htk u (List.mem_append.mpr (Or.inl hp)))
        (htasks u (mem_middle_of_mem_sides (List.mem_append.mpr (Or.inl hp))))
    · rcases List.mem_cons.mp hp with he | hp2
      · subst he
        refine ⟨applyUpdate r DeploymentStatus.in_progress none none none tNow,
          findByStack_update_self _ _ _ _ _ hfind, ?_, ?_, ?_,
          fun hc => absurd hc Nat.one_ne_zero, fun _ => rfl⟩
        · simpa [applyUpdate, truthy] using hpid
        · simpa [applyUpdate, truthy] using houts
        · simpa [applyUpdate, truthy] using herr
      · exact taskRecInv_update_other _ _ _ _ _
          (key_not_in_rest htk u (List.mem_append.mpr (Or.inr hp2)))
          (htasks u (mem_middle_of_mem_sides (List.mem_append.mpr (Or.inr hp2))))

theorem sysInv_task_advance (nice : Bool) {s : Sys} (pre post : List TaskState)
    (t : TaskState) (k : Nat) (h : SysInv nice s) (hs : s.tasks = pre ++ t :: post)
    (hpc : t.pc ≠ 0) (hk : k ≠ 0) :
    SysInv nice { store := s.store, tasks := pre ++ { t with pc := k } :: post } := by
  obtain ⟨hnd, hrec, htasks, htk⟩ := h
  rw [hs] at htasks htk
  refine ⟨hnd, hrec, ?_, @task_keys_nodup_replace pre post t { t with pc := k } rfl htk⟩
  intro u hu
  rcases List.mem_append.mp hu with hp | hp
  · exact htasks u (mem_middle_of_mem_sides (List.mem_append.mpr (Or.inl hp)))
  · rcases List.mem_cons.mp hp with he | hp2
    · subst he
      obtain ⟨r, hfind, h1, h2, h3, _, hpn⟩ :=
        htasks t (List.mem_append.mpr (Or.inr (List.mem_cons_self _ _)))
      exact ⟨r, hfind, h1, h2, h3, fun hc => absurd hc hk, fun _ => hpn hpc⟩
    · exact htasks u (mem_middle_of_mem_sides (List.mem_append.mpr (Or.inr hp2)))

theorem sysInv_task_remove (nice : Bool) {s : Sys} (pre post : List TaskState)
    (t : TaskState) (status : DeploymentStatus) (pid err : Option String) (tNow : Nat)
    (h : SysInv nice s) (hs : s.tasks = pre ++ t :: post)
    (hinv : ∀ r, findByStack s.store t.key = some r → r.outputs = none →
      r.error_message = none →
      RecordInv nice (applyUpdate r status pid none err tNow)) :
    SysInv nice
      { store := (update_deployment_status s.store t.key status pid none err tNow).1
        tasks := pre ++ post } := by
  obtain ⟨hnd, hrec, htasks, htk⟩ := h
  rw [hs] at htasks htk
  obtain ⟨r, hfind, hpid, houts, herr, -, -⟩ :=
    htasks t (List.mem_append.mpr (Or.inr (List.mem_cons_self _ _)))
  refine ⟨?_, ?_, ?_, task_keys_nodup_remove htk⟩
  · rw [map_stack_update]
    exact hnd
  · exact recordInv_update nice _ _ _ _ _ hfind hrec (hinv r hfind houts herr)
  · intro u hu
    exact taskRecInv_update_other _ _ _ _ _ (key_not_in_rest htk u hu)
      (htasks u (mem_middle_of_mem_sides hu))

theorem sysInv_get_status (nice : Bool) {s : Sys} (cn env : String)
    (remote : PollRemote) (now : Nat) (h : SysInv nice s)
    (hnice : nice = true →
      ∀ st, remote.pollResult = Except.ok st → st.message ≠ some "") :
    SysInv nice
      { store := (get_deployment_status s.store cn env remote now).1
        tasks := s.tasks } := by
  obtain ⟨hnd, hrec, htasks, htk⟩ := h
  rcases get_status_store_cases s.store cn env remote now with heq |
    ⟨r, st, hf, hip, htr, hpoll, hcase⟩
  · rw [heq]
    exact ⟨hnd, hrec, htasks, htk⟩
  · have hkey : r.stack_name = cn ++ "-" ++ env := findByStack_key hf
    have hf' : findByStack s.store r.stack_name = some r := by rw [hkey]; exact hf
    have hrInv := hrec r (findByStack_mem hf)
    have houts : r.outputs = none := by
      by_contra hc
      have hsu := hrInv.1 hc
      rw [hip] at hsu
      exact absurd hsu (by decide)
    have herr : r.error_message = none := by
      by_contra hc
      have hfl := hrInv.2.1 hc
      rw [hip] at hfl
      exact absurd hfl (by decide)
    have htaskne : ∀ u ∈ s.tasks, u.key ≠ r.stack_name := by
      intro u hu he
      obtain ⟨ru, hfu, hpidu, -⟩ := htasks u hu
      rw [he, hf'] at hfu
      injection hfu with hre
      rw [← hre] at hpidu
      rw [hpidu] at htr
      exact absurd htr (by decide)
    rcases hcase with ⟨outs, ho, heq⟩ | heq
    · rw [heq]
      refine ⟨?_, ?_, ?_, htk⟩
      · rw [map_stack_update]
        exact hnd
      · exact recordInv_update nice _ _ _ _ _ hf' hrec
          (recordInv_applyUpdate_succeeded nice r (json_dumps outs) now herr
            (json_dumps_ne_empty outs))
      · intro u hu
        exact taskRecInv_update_other _ _ _ _ _ (htaskne u hu) (htasks u hu)
    · rw [heq]
      have hdetail : nice = true → st.message.getD "Deployment failed" ≠ "" := by
        intro hn
        have hm := hnice hn st hpoll
        cases hmsg : st.message with
        | none => simp
        | some m =>
            simp only [Option.getD_some]
            intro hco
            exact hm (by rw [hmsg, hco])
      refine ⟨?_, ?_, ?_, htk⟩
      · rw [map_stack_update]
        exact hnd
      · exact recordInv_update nice _ _ _ _ _ hf' hrec
          (recordInv_applyUpdate_failed nice r _ now houts herr hdetail)
      · intro u hu
        exact taskRecInv_update_other _ _ _ _ _ (htaskne u hu) (htasks u hu)

/-- Every reachable system state satisfies the inductive invariant. -/
theorem reachable_sysInv {nice : Bool} {s : Sys} (h : Reachable nice s) :
    SysInv nice s := by
  induction h with
  | init => exact sysInv_init nice
  | onboard request now nextId h ih => exact sysInv_onboard nice request now nextId ih
  | task_start pre post t tNow h hs hpc ih =>
      exact sysInv_task_start nice pre post t tNow ih hs hpc
  | task_ensure_done pre post t h hs hpc ih =>
      exact sysInv_task_advance nice pre post t 2 ih hs (by rw [hpc]; decide) (by decide)
  | task_configure_fail pre post t e tNow h hs hpc hnice ih =>
      exact sysInv_task_remove nice pre post t DeploymentStatus.failed none (some e)
        tNow ih hs
        (fun r _ houts herr => recordInv_applyUpdate_failed nice r e tNow houts herr hnice)
  | task_configure_done pre post t h hs hpc ih =>
      exact sysInv_task_advance nice pre post t 3 ih hs (by rw [hpc]; decide) (by decide)
  | task_trigger_fail pre post t e tNow h hs hpc hnice ih =>
      exact sysInv_task_remove nice pre post t DeploymentStatus.failed none (some e)
        tNow ih hs
        (fun r _ houts herr => recordInv_applyUpdate_failed nice r e tNow houts herr hnice)
  | task_trigger_done pre post t resp tNow h hs hpc ih =>
      exact sysInv_task_remove nice pre post t DeploymentStatus.in_progress
        (some (resp.id.getD "")) none tNow ih hs
        (fun r _ houts herr => recordInv_applyUpdate_in_progress nice r _ tNow houts herr)
  | get_status cn env remote now h hnice ih =>
      exact sysInv_get_status nice cn env remote now ih hnice

/-- The PENDING record created by onboarding `demoRequest` into an empty
store at time 0 with id 1. -/
def cexRecordPending : CustomerDeploymentRecord :=
  newDeploymentRecord "acme-co" "prod" "us-east-1"
    "arn:aws:iam::123456789012:role/byoc" 0 1

/-- The record after the background sequence fails its configure step with
an empty exception message: FAILED, but `errorDetail` was never written. -/
def cexFailedRecord : CustomerDeploymentRecord :=
  { cexRecordPending with status := DeploymentStatus.failed, updated_at := 2 }

/-- C7 counterexample: a store reachable through Submit followed by the
background trigger sequence whose configure step raises an exception with
empty `str(e)` contains a FAILED record whose `errorDetail` is null — the
truthy guard in `update_deployment_status` drops the empty message, so a
job that ends FAILED need not have non-null `errorDetail`. -/
theorem lifecycle_failed_without_detail_cex :
    Reachable false { store := [cexFailedRecord], tasks := [] } ∧
    cexFailedRecord ∈ [cexFailedRecord] ∧
    cexFailedRecord.status = DeploymentStatus.failed ∧
    cexFailedRecord.error_message = none := by
  refine ⟨?_, List.mem_singleton_self _, rfl, rfl⟩
  have h0 : Reachable false { store := [], tasks := [] } := Reachable.init
  have h1 : Reachable false
      { store := [cexRecordPending]
        tasks := [{ request := demoRequest, pc := 0 }] } :=
    Reachable.onboard demoRequest 0 1 h0
  have h2 : Reachable false
      { store := [{ cexRecordPending with
          status := DeploymentStatus.in_progress, updated_at := 1 }]
        tasks := [{ request := demoRequest, pc := 1 }] } :=
    Reachable.task_start [] [] { request := demoRequest, pc := 0 } 1 h1 rfl rfl
  have h3 : Reachable false
      { store := [{ cexRecordPending with
          status := DeploymentStatus.in_progress, updated_at := 1 }]
        tasks := [{ request := demoRequest, pc := 2 }] } :=
    Reachable.task_ensure_done [] [] { request := demoRequest, pc := 1 } h2 rfl rfl
  have h4 : Reachable false { store := [cexFailedRecord], tasks := [] } :=
    Reachable.task_configure_fail [] [] { request := demoRequest, pc := 2 } "" 2 h3
      rfl rfl (fun hc => absurd hc (by decide))
  exact h4

/-- C7 (amended): in every store reachable through the orchestrator's
operations (Submit, the interleaved background trigger sequence, and
GetStatus reconciliation), `outputs` is non-null only when the status is
SUCCEEDED and `errorDetail` is non-null only when the status is FAILED; a
job that reaches SUCCEEDED has non-null outputs and null errorDetail; and —
provided every failure message captured from the remote engine is non-empty
(`Reachable true`) — a job that ends FAILED has non-null errorDetail and
null outputs. -/
theorem lifecycle_outputs_error_invariant (s : Sys) (h : Reachable true s) :
    ∀ r ∈ s.store,
      (r.outputs ≠ none → r.status = DeploymentStatus.succeeded) ∧
      (r.error_message ≠ none → r.status = DeploymentStatus.failed) ∧
      (r.status = DeploymentStatus.succeeded →
        r.outputs ≠ none ∧ r.error_message = none) ∧
      (r.status = DeploymentStatus.failed →
        r.error_message ≠ none ∧ r.outputs = none) := by
  obtain ⟨-, hrec, -, -⟩ := reachable_sysInv h
  intro r hr
  obtain ⟨h1, h2, h3, h4⟩ := hrec r hr
  refine ⟨h1, h2, fun hsucc => ⟨h3 hsucc, ?_⟩, fun hfail => ⟨h4 rfl hfail, ?_⟩⟩
  · by_contra hc
    have hx := h2 hc
    rw [hsucc] at hx
    exact absurd hx (by decide)
  · by_contra hc
    have hx := h1 hc
    rw [hfail] at hx
    exact absurd hx (by decide)

theorem lifecycle_outputs_error_invariant_witness :
    Reachable true
      { store := [cexRecordPending], tasks := [{ request := demoRequest, pc := 0 }] } ∧
    cexRecordPending ∈ [cexRecordPending] ∧
    ((cexRecordPending.outputs ≠ none →
        cexRecordPending.status = DeploymentStatus.succeeded) ∧
      (cexRecordPending.error_message ≠ none →
        cexRecordPending.status = DeploymentStatus.failed) ∧
      (cexRecordPending.status = DeploymentStatus.succeeded →
        cexRecordPending.outputs ≠ none ∧ cexRecordPending.error_message = none) ∧
      (cexRecordPending.status = DeploymentStatus.failed →
        cexRecordPending.error_message ≠ none ∧ cexRecordPending.outputs = none)) := by
  have h1 : Reachable true
      { store := [cexRecordPending]
        tasks := [{ request := demoRequest, pc := 0 }] } :=
    Reachable.onboard demoRequest 0 1 Reachable.init
  exact ⟨h1, List.mem_singleton_self _,
    lifecycle_outputs_error_invariant _ h1 cexRecordPending (List.mem_singleton_self _)⟩

end Byoc
